import Mathlib

/-!
# Verification of the indoor-pathfinding SLAM backend core

Shallow embedding, in Lean 4, of the SLAM backend's core components:

* the localization output interpreter (`be/slam_engines/rtabmap/engine.py`,
  `RTABMapEngine.localize`, step 8a) and its confidence formula;
* the intrinsics scaler (`RTABMapEngine.scale_intrinsics`);
* the calibration codec (`be/slam_engines/rtabmap/db_builder.py`,
  `build_calibration_blob` / `RTABMapEngine.extract_intrinsics_from_db`);
* the pose-blob decoder (`be/slam_engines/rtabmap/database_parser.py`,
  `DatabaseParser._parse_pose_blob`) and database parser (`parse_database`);
* the database builder frame loop (`build_database`, `load_and_resize_depth`);
* the storage retry wrapper (`be/storage/postgres_adapter.py`,
  `PostgresAdapter._retry_on_connection_error`);
* the job-queue worker loop (`be/utils/job_queue.py`, `SLAMJobQueue._worker_loop`).

Modelling conventions: Python machine floats (IEEE binary64 values, and the
binary32 values stored in blobs) are idealized as exact rationals `ℚ`;
byte strings are `List Nat` (one entry per byte, each < 256); fallible
Python code (raising exceptions) is modelled with `Except`/`Option`.
-/

deriving instance DecidableEq for Except

namespace SlamCore

/-- The error taxonomy of the spec (section 7), as raised by the Python code
(`ValueError`/`TimeoutError`/... carrying the respective messages). -/
inductive CoreErr where
  | malformedRecord
  | invalidIntrinsics
  | extremeScaling
  | noMatch
  | packOverflow
  deriving DecidableEq, Repr

/-! ## 4.4 Output Interpreter (`RTABMapEngine.localize`, engine.py lines 779-817)

The Python code scans `stdout_str.split('\n')` line by line.  Each line is
matched first against `loop_pattern` (an accepted loop closure
`iteration(..) loop(<id>) hyp(<v>)`); if it matches, the high pattern is not
tried for that line (`continue`).  Otherwise it is matched against
`high_pattern` (`iteration(..) high(<id>) hyp(<v>)`).  We embed a stdout line
as the result of this classification: `loopLine id hyp`, `highLine id hyp`,
or `other` (a line matching neither regex). -/
inductive OutLine where
  | loopLine (id : Nat) (hyp : ℚ)
  | highLine (id : Nat) (hyp : ℚ)
  | other
  deriving DecidableEq, Repr

/-- The interpreter's running state: `matched_node_id` (initially `None`) and
`best_hypothesis` (initially `-999.0`). -/
structure ScanState where
  matched : Option Nat
  best : ℚ
  deriving DecidableEq, Repr

/-- One iteration of the `for line in stdout_str.split('\n')` loop
(engine.py lines 786-804): a loop match updates the state whenever its
hypothesis strictly exceeds `best_hypothesis`; a high match is considered
only while `matched_node_id is None`, and then updates the state whenever its
hypothesis strictly exceeds `best_hypothesis`. -/
def scanLine (st : ScanState) (l : OutLine) : ScanState :=
  match l with
  | .loopLine id hyp => if st.best < hyp then ⟨some id, hyp⟩ else st
  | .highLine id hyp =>
      if st.matched = none then
        (if st.best < hyp then ⟨some id, hyp⟩ else st)
      else st
  | .other => st

/-- The full scan over all stdout lines, from the initial state
`matched_node_id = None`, `best_hypothesis = -999.0`. -/
def scanOutput (lines : List OutLine) : ScanState :=
  lines.foldl scanLine ⟨none, -999⟩

/-- Result of the output-interpreter phase: matched node id and the final
`best_hypothesis` value. -/
def interpretOutput (lines : List OutLine) : Except CoreErr (Nat × ℚ) :=
  match scanOutput lines with
  | ⟨none, _⟩ => .error .noMatch
  | ⟨some id, best⟩ => .ok (id, best)

/-- Python's two-argument `min` on numbers (returns the first argument on
ties, which is value-irrelevant here). -/
def pymin (a b : ℚ) : ℚ := if b < a then b else a

/-- Python's two-argument `max` on numbers. -/
def pymax (a b : ℚ) : ℚ := if b > a then b else a

/-- Confidence formula of engine.py line 817:
`confidence = min(0.9, max(0.1, (best_hypothesis + 1.0) / 2.0))`. -/
def localizeConfidence (bestHypothesis : ℚ) : ℚ :=
  pymin (9/10) (pymax (1/10) ((bestHypothesis + 1) / 2))

/-! ## 4.1 Pose codec (`DatabaseParser._parse_pose_blob`, database_parser.py 136-179)

A pose blob is a Python byte string, embedded as `List Nat` (one entry per
byte).  `struct.unpack('12f', blob[:48])` decodes the first 48 bytes as 12
little-endian IEEE-754 binary32 values.  We decode the bit patterns exactly
for finite floats (normal and subnormal); the exponent-255 patterns
(infinities and NaNs) are idealized by extending the normal-value formula,
consistent with the file-wide idealization of floats as exact rationals. -/

/-- Little-endian 32-bit word from 4 bytes (as `struct.unpack('<I')` would). -/
def wordOfBytesLE (b0 b1 b2 b3 : Nat) : Nat :=
  b0 + 256 * b1 + 65536 * b2 + 16777216 * b3

/-- Value of an IEEE-754 binary32 bit pattern, as an exact rational:
sign bit 31, biased exponent bits 30-23, mantissa bits 22-0.
`e = 0` is the subnormal range `± m * 2^(-149)`; otherwise
`± (2^23 + m) * 2^(e - 150)`, written without negative exponents as
`(2^23 + m) * 2^e / 2^150`. -/
def decodeF32 (w : Nat) : ℚ :=
  let sign : ℚ := if w / 2 ^ 31 % 2 = 1 then -1 else 1
  let e : Nat := w / 2 ^ 23 % 256
  let m : Nat := w % 2 ^ 23
  if e = 0 then sign * (m : ℚ) / 2 ^ 149
  else sign * ((2 ^ 23 + m : Nat) : ℚ) * 2 ^ e / 2 ^ 150

/-- The `i`-th little-endian float32 of a byte string (element `values[i]` of
`struct.unpack('12f', ...)`): bytes `4i .. 4i+3`.  Out-of-range reads default
to byte 0; callers only use indices covered by a length guard. -/
def f32At (blob : List Nat) (i : Nat) : ℚ :=
  decodeF32 (wordOfBytesLE (blob.getD (4 * i) 0) (blob.getD (4 * i + 1) 0)
    (blob.getD (4 * i + 2) 0) (blob.getD (4 * i + 3) 0))

/-- Decoded pose record: translation `(tx, ty, tz) = (values[3], values[7],
values[11])` and the 3x3 rotation block
`[r11 r12 r13 r21 r22 r23 r31 r32 r33] = values[0,1,2,4,5,6,8,9,10]`
(database_parser.py 143-146).  The Python code additionally converts the
rotation block to a quaternion by the four-branch trace formula
(lines 148-172, using `math.sqrt`); under the exact-arithmetic idealization
that conversion is total — each branch's radicand is nonnegative and each
divisor nonzero (lemmas `quat_branch2_radicand_pos` .. `quat_branch4_radicand_pos`
below) — so it never affects success or failure, and we keep the rotation
block it is computed from. -/
structure PoseRec where
  position : ℚ × ℚ × ℚ
  rot : List ℚ
  deriving DecidableEq, Repr

/-- `DatabaseParser._parse_pose_blob` (database_parser.py 136-179): returns
`None` when `len(blob) < 48`; otherwise decodes `struct.unpack('12f',
blob[:48])`.  (The surrounding `try`/`except` is dead under exact arithmetic:
see `PoseRec`.) -/
def parse_pose_blob (blob : List Nat) : Option PoseRec :=
  if blob.length < 48 then none
  else
    let b := blob.take 48
    some { position := (f32At b 3, f32At b 7, f32At b 11),
           rot := [f32At b 0, f32At b 1, f32At b 2,
                   f32At b 4, f32At b 5, f32At b 6,
                   f32At b 8, f32At b 9, f32At b 10] }

/-! ## 4.2 Map database parse side (`DatabaseParser.parse_database`,
database_parser.py 79-134)

The SQLite database is embedded as its relevant relational content: the Node
rows (id, stamp, optional pose blob), the Link row type tags, and the Feature
row count.  The three failure modes of the Python function are the three
constructors of `DBInput`: a missing file (the `Path(db_path).exists()`
guard), an exception while reading (the `except Exception` arm), and a
readable database. -/

/-- One row of the Node table: `id` (INTEGER PRIMARY KEY), `stamp` (FLOAT),
`pose` (BLOB, nullable). -/
structure NodeRow where
  id : Int
  stamp : ℚ
  pose : Option (List Nat)
  deriving DecidableEq, Repr

/-- The content of a readable map database that `parse_database` consumes:
Node rows, the `type` tags of all Link rows, and the Feature row count. -/
structure MapDB where
  nodes : List NodeRow
  linkTypes : List Int
  featureCount : Nat
  deriving DecidableEq, Repr

/-- Input situations for `parse_database`. -/
inductive DBInput where
  | missing
  | failure (msg : String)
  | good (db : MapDB)

/-- One keyframe record `{id, timestamp, position, orientation}` emitted by
`parse_database` (database_parser.py 111-116); `pose` carries the decoded
position and rotation block (see `PoseRec`). -/
structure Keyframe where
  id : Int
  timestamp : ℚ
  pose : PoseRec
  deriving DecidableEq, Repr

/-- Result dictionary of `parse_database`: `num_keyframes`, `num_map_points`,
`keyframes`, `loop_closures`, and the optional `error` key added only in the
exception arm (database_parser.py 128-134). -/
structure ParseResult where
  num_keyframes : Nat
  num_map_points : Nat
  keyframes : List Keyframe
  loop_closures : Nat
  err : Option String
  deriving DecidableEq, Repr

/-- Insert into a sorted list (kept before later equal elements). -/
def insertLe (le : α → α → Bool) (x : α) : List α → List α
  | [] => [x]
  | y :: ys => if le x y then x :: y :: ys else y :: insertLe le x ys

/-- Stable insertion sort; embeds both SQLite's `ORDER BY id` and Python's
`sorted(...)` (the sort keys involved are unique, so stability and algorithm
choice are observationally irrelevant). -/
def sortLe (le : α → α → Bool) (xs : List α) : List α :=
  xs.foldr (insertLe le) []

/-- The `for node_id, pose_blob, timestamp in cursor.fetchall()` loop of
`parse_database` (database_parser.py 107-116): a row contributes a keyframe
when its pose blob is present and truthy (`if pose_blob:` — `NULL` and the
empty byte string are falsy) and `_parse_pose_blob` succeeds. -/
def collectKeyframes : List NodeRow → List Keyframe
  | [] => []
  | n :: rest =>
      match n.pose with
      | some blob =>
          if blob = [] then collectKeyframes rest
          else
            match parse_pose_blob blob with
            | some p => ⟨n.id, n.stamp, p⟩ :: collectKeyframes rest
            | none => collectKeyframes rest
      | none => collectKeyframes rest

/-- `DatabaseParser.parse_database(db_path, keyframe_limit=0)`
(database_parser.py 79-134).  A missing file returns the all-zero result; a
read failure returns the all-zero result with the `error` key; otherwise
`num_keyframes = COUNT(*) FROM Node`, `loop_closures = COUNT(*) FROM Link
WHERE type=2`, `num_map_points = COUNT(*) FROM Feature`, and the keyframes
come from the Node rows ordered by id (`LIMIT keyframe_limit` when the limit
is positive). -/
def parse_database (input : DBInput) (keyframe_limit : Nat := 0) : ParseResult :=
  match input with
  | .missing => ⟨0, 0, [], 0, none⟩
  | .failure msg => ⟨0, 0, [], 0, some msg⟩
  | .good db =>
      let sorted := sortLe (fun a b => decide (a.id ≤ b.id)) db.nodes
      let limited := if 0 < keyframe_limit then sorted.take keyframe_limit else sorted
      { num_keyframes := db.nodes.length
        num_map_points := db.featureCount
        keyframes := collectKeyframes limited
        loop_closures := (db.linkTypes.filter (fun t => decide (t = 2))).length
        err := none }

/-! ## 4.1 Calibration codec (`build_calibration_blob`, db_builder.py 165-192,
and the blob-decoding core of `RTABMapEngine.extract_intrinsics_from_db`,
engine.py 147-208)

The 164-byte `struct.pack('<3i i 2i 4i i 9d 12f', ...)` record is embedded at
field granularity: a list of typed fields, each with its wire size (4-byte
little-endian int32, 8-byte binary64, 4-byte binary32).  `struct.pack`/
`struct.unpack` of a float is bit-exact, so at this granularity pack followed
by unpack is the identity on each field; `struct.pack('<i', v)` raises
`struct.error` when `v` is outside the int32 range, which the encoder checks
explicitly. -/

/-- One packed field of a calibration blob. -/
inductive PackField where
  | i32 (v : Int)
  | f64 (v : ℚ)
  | f32 (v : ℚ)
  deriving DecidableEq, Repr

/-- Wire size in bytes of a packed field (`struct.calcsize`). -/
def PackField.size : PackField → Nat
  | .i32 _ => 4
  | .f64 _ => 8
  | .f32 _ => 4

/-- Total byte length of a packed blob. -/
def blobBytes (blob : List PackField) : Nat :=
  (blob.map PackField.size).sum

/-- Camera intrinsics dictionary (`fx, fy, cx, cy, width, height`). -/
structure Intrinsics where
  fx : ℚ
  fy : ℚ
  cx : ℚ
  cy : ℚ
  width : Int
  height : Int
  deriving DecidableEq, Repr

/-- The field sequence of `struct.pack('<3i i 2i 4i i 9d 12f', 0,22,0, 0,
width,height, 9,0,0,0, 12, *K, *optical_rotation)` with
`K = [fx,0,cx, 0,fy,cy, 0,0,1]` and the fixed optical-frame transform
(db_builder.py 174-191). -/
def calibFields (fx fy cx cy : ℚ) (width height : Int) : List PackField :=
  [.i32 0, .i32 22, .i32 0, .i32 0, .i32 width, .i32 height,
   .i32 9, .i32 0, .i32 0, .i32 0, .i32 12]
    ++ ([fx, 0, cx, 0, fy, cy, 0, 0, 1].map .f64)
    ++ ([0, 0, 1, 0, 0, -1, 0, 0, 1, 0, 0, 0].map .f32)

/-- `build_calibration_blob(fx, fy, cx, cy, width, height)` (db_builder.py
165-192): packs `calibFields`; `struct.error` (modelled as `packOverflow`)
is raised when `width` or `height` does not fit in an int32. -/
def build_calibration_blob (fx fy cx cy : ℚ) (width height : Int) :
    Except CoreErr (List PackField) :=
  if width < -(2 ^ 31) ∨ 2 ^ 31 ≤ width ∨ height < -(2 ^ 31) ∨ 2 ^ 31 ≤ height then
    .error .packOverflow
  else .ok (calibFields fx fy cx cy width height)

/-- Element `i` of an unpacked field tuple (`data[i]`). -/
def fieldAt : List PackField → Nat → Option PackField
  | [], _ => none
  | f :: _, 0 => some f
  | _ :: rest, n + 1 => fieldAt rest n

/-- Field `i` of a packed blob when it is an int32. -/
def getI32 (blob : List PackField) (i : Nat) : Option Int :=
  match fieldAt blob i with
  | some (.i32 v) => some v
  | _ => none

/-- Field `i` of a packed blob when it is a binary64. -/
def getF64 (blob : List PackField) (i : Nat) : Option ℚ :=
  match fieldAt blob i with
  | some (.f64 v) => some v
  | _ => none

/-- Blob-decoding core of `RTABMapEngine.extract_intrinsics_from_db`
(engine.py 147-208; the SQLite query that fetches the blob is elided):
rejects a blob whose size differs from `struct.calcsize('<3i i 2i 4i i 9d
12f') = 164` (`MalformedRecord`); otherwise reads `width = data[4]`,
`height = data[5]`, `fx = data[11]`, `cx = data[13]`, `fy = data[15]`,
`cy = data[16]` (K is `data[11:20]`; fx=K[0], cx=K[2], fy=K[4], cy=K[5]) and
rejects non-positive values (`InvalidIntrinsics`).  A 164-byte blob whose
field shape differs from the pack format cannot arise from the encoder and
is mapped to `MalformedRecord`. -/
def extract_intrinsics_from_blob (blob : List PackField) : Except CoreErr Intrinsics :=
  if blobBytes blob ≠ 164 then .error .malformedRecord
  else
    match getI32 blob 4, getI32 blob 5, getF64 blob 11, getF64 blob 13,
        getF64 blob 15, getF64 blob 16 with
    | some width, some height, some fx, some cx, some fy, some cy =>
        if fx ≤ 0 ∨ fy ≤ 0 ∨ cx ≤ 0 ∨ cy ≤ 0 ∨ width ≤ 0 ∨ height ≤ 0 then
          .error .invalidIntrinsics
        else .ok ⟨fx, fy, cx, cy, width, height⟩
    | _, _, _, _, _, _ => .error .malformedRecord

/-- `RTABMapEngine.scale_intrinsics(original, new_width, new_height)`
(engine.py 217-295): identity when the resolution already matches; otherwise
`scale_x = new_width / old_width`, `scale_y = new_height / old_height`,
`ExtremeScaling` when either factor is above 5.0 or below 0.2, else fx,cx
scaled by `scale_x` and fy,cy by `scale_y`.  (Python would raise
`ZeroDivisionError` for a zero original dimension; the theorems below only
use this definition on the documented domain of strictly positive original
dimensions, where the rational division agrees with Python exactly.) -/
def scale_intrinsics (original : Intrinsics) (new_width new_height : Int) :
    Except CoreErr Intrinsics :=
  if original.width = new_width ∧ original.height = new_height then .ok original
  else
    let scale_x : ℚ := (new_width : ℚ) / (original.width : ℚ)
    let scale_y : ℚ := (new_height : ℚ) / (original.height : ℚ)
    if scale_x > 5 ∨ scale_y > 5 ∨ scale_x < 1/5 ∨ scale_y < 1/5 then
      .error .extremeScaling
    else
      .ok { fx := original.fx * scale_x
            fy := original.fy * scale_y
            cx := original.cx * scale_x
            cy := original.cy * scale_y
            width := new_width
            height := new_height }

/-! ## 4.2 Map database build side (`build_database` and
`load_and_resize_depth`, db_builder.py 204-339)

A capture frame is embedded with its filename (as the list of Unicode code
points, which is how Python compares and sorts `str` values), its depth image
(`None` when the depth file is missing or `cv2.imread` cannot decode it,
otherwise the pixel grid as rows of 16-bit values), and the chunk-metadata
timestamp (`0.0` when absent).  Reading of images/chunks from disk and the
PNG re-encoding of the stored depth are elided: the claims concern which
frames are retained and how node ids are assigned. -/

/-- A depth image as rows of pixel values (`numpy` array of dtype uint16). -/
abbrev DepthImg := List (List Nat)

/-- `depth.size` — total element count. -/
def depthSize (d : DepthImg) : Nat := (d.map List.length).sum

/-- `depth.max()` — the maximum pixel value (0 on the empty image, which the
Python code never asks for thanks to short-circuiting on `size == 0`). -/
def depthMax (d : DepthImg) : Nat :=
  (d.map (fun row => row.foldr Nat.max 0)).foldr Nat.max 0

/-- `cv2.resize(depth, (target_w, target_h), interpolation=cv2.INTER_NEAREST)`:
output pixel `(i, j)` reads source pixel `(floor(i*old_h/target_h),
floor(j*old_w/target_w))` — raw values preserved, no blending. -/
def resizeNearest (d : DepthImg) (target_w target_h : Nat) : DepthImg :=
  let old_h := d.length
  let old_w := (d.headD []).length
  (List.range target_h).map fun i =>
    (List.range target_w).map fun j =>
      (d.getD (i * old_h / target_h) []).getD (j * old_w / target_w) 0

/-- `load_and_resize_depth(depth_path, target_w, target_h)` (db_builder.py
204-221): `None` when the file is missing or unreadable (`cv2.imread`
returned `None`), when the image is empty (`depth.size == 0`), or all-zero
(`depth.max() == 0`); otherwise the image, nearest-neighbor resized when its
shape `(rows, cols) = (shape[0], shape[1])` differs from the target. -/
def load_and_resize_depth (depth : Option DepthImg) (target_w target_h : Nat) :
    Option DepthImg :=
  match depth with
  | none => none
  | some d =>
      if depthSize d = 0 ∨ depthMax d = 0 then none
      else if (d.headD []).length ≠ target_w ∨ d.length ≠ target_h then
        some (resizeNearest d target_w target_h)
      else some d

/-- One capture frame of a session: image filename (code points), depth image
(looked up in `depth/` under the image's stem), chunk-metadata timestamp. -/
structure Frame where
  name : List Nat
  depth : Option DepthImg
  timestamp : ℚ
  deriving DecidableEq, Repr

/-- ASCII lowering of one code point (`str.lower` restricted to ASCII, which
is all the extension test needs). -/
def toLowerCP (c : Nat) : Nat := if 65 ≤ c ∧ c ≤ 90 then c + 32 else c

/-- `name.endswith(sfx)` on code-point lists. -/
def endsWithCP (name sfx : List Nat) : Bool :=
  decide (sfx.length ≤ name.length) &&
    decide (name.drop (name.length - sfx.length) = sfx)

/-- `f.lower().endswith(('.jpg', '.jpeg', '.png'))` (db_builder.py 269-272):
the extension filter on directory entries. -/
def isImageFile (name : List Nat) : Bool :=
  let l := name.map toLowerCP
  endsWithCP l [46, 106, 112, 103] || endsWithCP l [46, 106, 112, 101, 103] ||
    endsWithCP l [46, 112, 110, 103]

/-- Python string comparison on code-point lists (lexicographic), as used by
`sorted(...)`. -/
def lexLeCP : List Nat → List Nat → Bool
  | [], _ => true
  | _ :: _, [] => false
  | a :: as, b :: bs => if a < b then true else if b < a then false else lexLeCP as bs

/-- The deterministic iteration order of `build_database`:
`sorted([f for f in os.listdir(images_dir) if f.lower().endswith(...)])`. -/
def imageFiles (frames : List Frame) : List Frame :=
  sortLe (fun a b => lexLeCP a.name b.name) (frames.filter (fun f => isImageFile f.name))

/-- One Node/Data row pair inserted by `build_database`: assigned node id,
the frame's filename, the stored `stamp`, and the stored (resized) depth
bytes (`None` in monocular mode). -/
structure BuiltNode where
  id : Nat
  name : List Nat
  stamp : ℚ
  depth : Option DepthImg
  deriving DecidableEq, Repr

/-- The `stamp` computation of db_builder.py 306-309:
`stamp = meta.get('timestamp', 0.0); if stamp > 0: stamp = stamp / 1000.0`. -/
def stampOf (f : Frame) : ℚ :=
  if f.timestamp > 0 then f.timestamp / 1000 else f.timestamp

/-- The `for img_file in image_files` loop of `build_database` (db_builder.py
285-319), carrying `node_id` and `skipped`: in non-monocular mode a frame
whose `load_and_resize_depth` result is `None` is skipped (counted, no node);
every other frame gets `node_id += 1` and a Node/Data row. -/
def buildLoop (monocular : Bool) (img_w img_h : Nat) :
    List Frame → Nat → Nat → List BuiltNode × Nat
  | [], _, skipped => ([], skipped)
  | f :: rest, node_id, skipped =>
      let depth_data := if monocular then none else load_and_resize_depth f.depth img_w img_h
      if ¬monocular ∧ depth_data = none then
        buildLoop monocular img_w img_h rest node_id (skipped + 1)
      else
        let out := buildLoop monocular img_w img_h rest (node_id + 1) skipped
        (⟨node_id + 1, f.name, stampOf f, depth_data⟩ :: out.1, out.2)

/-- `build_database(session_path, intrinsics, ..., monocular)` (db_builder.py
224-339), restricted to its Node/Data-row content: iterates the
filename-sorted image files and returns the inserted rows together with the
skip count.  `img_w`/`img_h` are `intrinsics['width']`/`intrinsics['height']`
(the depth resize target). -/
def build_database (frames : List Frame) (monocular : Bool) (img_w img_h : Nat) :
    List BuiltNode × Nat :=
  buildLoop monocular img_w img_h (imageFiles frames) 0 0

/-- Whether `build_database` retains a frame (assigns it a node). -/
def keepFrame (monocular : Bool) (img_w img_h : Nat) (f : Frame) : Bool :=
  monocular || (load_and_resize_depth f.depth img_w img_h).isSome

/-! ## 4.5 / 6: durable status writes
(`PostgresAdapter._retry_on_connection_error`, postgres_adapter.py 33-57)

The wrapped async operation is embedded as a map from the attempt index to
its outcome; an exception is `caught` when it is one of the classes named in
the `except` clause (`asyncpg.exceptions.PostgresError`,
`ConnectionRefusedError`) and uncaught otherwise.  The trace records the
returned/raised outcome, the `asyncio.sleep` delays in order, and how many
times the operation was invoked. -/

/-- A storage-layer exception: `caught` carries whether the `except` clause
of the retry wrapper catches it (transient connection error), `code` is an
opaque identity tag. -/
structure StorErr where
  caught : Bool
  code : Nat
  deriving DecidableEq, Repr

/-- Execution trace of `_retry_on_connection_error`: final outcome (`ok none`
is Python's implicit `return None` when the loop body never runs, i.e.
`max_retries = 0`), the sleep delays in seconds, and the number of times the
wrapped operation was awaited. -/
structure RetryTrace (α : Type) where
  result : Except StorErr (Option α)
  sleeps : List ℚ
  attempts : Nat
  deriving Repr

/-- The `for attempt in range(max_retries)` loop (postgres_adapter.py 48-57)
from loop index `attempt`: return on success; re-raise an uncaught error;
re-raise a caught error on the last attempt (`attempt == max_retries - 1`);
otherwise sleep `0.1 * 2 ** attempt` seconds and continue. -/
def retryGo (op : Nat → Except StorErr α) (max_retries attempt : Nat) : RetryTrace α :=
  if _h : attempt < max_retries then
    match op attempt with
    | .ok v => ⟨.ok (some v), [], 1⟩
    | .error e =>
        if e.caught then
          if attempt = max_retries - 1 then ⟨.error e, [], 1⟩
          else
            let rest := retryGo op max_retries (attempt + 1)
            ⟨rest.result, (1/10) * 2 ^ attempt :: rest.sleeps, rest.attempts + 1⟩
        else ⟨.error e, [], 1⟩
  else ⟨.ok none, [], 0⟩
termination_by max_retries - attempt
decreasing_by omega

/-- `PostgresAdapter._retry_on_connection_error(func, max_retries=3)`. -/
def retry_on_connection_error (op : Nat → Except StorErr α)
    (max_retries : Nat := 3) : RetryTrace α :=
  retryGo op max_retries 0

/-! ## 4.5 Job queue worker (`SLAMJobQueue._worker_loop`, job_queue.py
118-167)

A dequeued job is a `(building_id, session_db_pairs)` tuple; each session's
processing (`_process_session` plus `update_processing_result`) either
succeeds or raises, and the artifact save (`output_path.write_bytes`) may
also raise — all inside one `try` whose `except Exception` arm marks every
session of the job failed with `f"{type(e).__name__}: {str(e)}"` and falls
through to the next loop iteration.  Durable status writes are recorded as a
log of `(session_id, status)` events; the adapter itself (whose transient
errors are retried, see `retry_on_connection_error`) is modelled as
reliable. -/

/-- A Python exception as captured by the worker loop's error message. -/
structure PyExc where
  excName : String
  excMsg : String
  deriving DecidableEq, Repr

/-- `error_msg = f"{type(e).__name__}: {str(e)}"` (job_queue.py 155). -/
def describeExc (e : PyExc) : String := e.excName ++ ": " ++ e.excMsg

/-- Durable scan statuses written by the worker loop
(`SCAN_STATUS_PROCESSING/COMPLETED/FAILED`). -/
inductive ScanStatus where
  | processing
  | completed
  | failed (msg : String)
  deriving DecidableEq, Repr

/-- One dequeued job: `building_id`, the `(session_id, outcome)` pairs (the
outcome of processing that session), and the outcome of persisting the map
artifact after all sessions succeed (`ok` also covers the skipped save when
no binary was produced). -/
structure Job where
  buildingId : Nat
  sessions : List (Nat × Except PyExc Unit)
  artifact : Except PyExc Unit
  deriving DecidableEq, Repr

/-- The first exception raised while processing the job's sessions in order. -/
def firstSessionError : List (Nat × Except PyExc Unit) → Option PyExc
  | [] => none
  | (_, .error e) :: _ => some e
  | (_, .ok _) :: rest => firstSessionError rest

/-- The exception (if any) that the job's `try` block raises: the first
failing session aborts the per-session loop; otherwise the artifact save runs
(only when at least one session produced a `last_result`). -/
def jobError (j : Job) : Option PyExc :=
  match firstSessionError j.sessions with
  | some e => some e
  | none =>
      if j.sessions.isEmpty then none
      else match j.artifact with
        | .error e => some e
        | .ok _ => none

/-- The durable status writes of one loop iteration (job_queue.py 125-161):
every session is marked `processing` first; then, depending on whether the
`try` body raised, every session is marked `failed` with the captured
description, or `completed`. -/
def processJob (j : Job) : List (Nat × ScanStatus) :=
  (j.sessions.map fun s => (s.1, ScanStatus.processing)) ++
    (match jobError j with
     | some e => j.sessions.map fun s => (s.1, ScanStatus.failed (describeExc e))
     | none => j.sessions.map fun s => (s.1, ScanStatus.completed))

/-- `SLAMJobQueue._worker_loop` over a queue that ends up holding the given
jobs, as the concatenated log of durable status writes: the `except
Exception` arm never leaves the `while True` loop, so every queued job is
processed. -/
def worker_loop : List Job → List (Nat × ScanStatus)
  | [] => []
  | j :: rest => processJob j ++ worker_loop rest

/-- The last status durably written for a session by a write log. -/
def lastStatus (writes : List (Nat × ScanStatus)) (sid : Nat) : Option ScanStatus :=
  ((writes.filter fun w => decide (w.1 = sid)).map (fun w => w.2)).getLast?

/-! ## Specification-side auxiliary definitions used by the theorems -/

/-- Whether a stdout line is an accepted-loop match. -/
def isLoopLine : OutLine → Bool
  | .loopLine _ _ => true
  | _ => false

/-- The first `high` match whose hypothesis exceeds the initial
`best_hypothesis = -999` — what the scan actually falls back to when no
accepted loop appears. -/
def firstHighAbove : List OutLine → Option (Nat × ℚ)
  | [] => none
  | .highLine id h :: rest => if -999 < h then some (id, h) else firstHighAbove rest
  | _ :: rest => firstHighAbove rest

/-- A Node row whose pose blob is present (non-NULL), truthy (non-empty), and
accepted by `_parse_pose_blob` (at least 48 bytes). -/
def poseUsable (n : NodeRow) : Bool :=
  match n.pose with
  | none => false
  | some b => !b.isEmpty && decide (48 ≤ b.length)

/-- The keyframe record a Node row contributes, if any: the body of the
keyframe loop of `parse_database` for one row. -/
def keyframeOf (n : NodeRow) : Option Keyframe :=
  match n.pose with
  | none => none
  | some blob =>
      if blob = [] then none
      else (parse_pose_blob blob).map fun p => ⟨n.id, n.stamp, p⟩

/-- The Node rows `build_database` inserts for an already-filtered list of
retained frames, numbering from `node_id = n`: row `k` of the list gets id
`n + k + 1`. -/
def numberRows (monocular : Bool) (img_w img_h : Nat) : Nat → List Frame → List BuiltNode
  | _, [] => []
  | n, f :: fs =>
      ⟨n + 1, f.name, stampOf f,
        if monocular then none else load_and_resize_depth f.depth img_w img_h⟩ ::
        numberRows monocular img_w img_h (n + 1) fs

/-- An operation that raises a caught (transient) connection error on every
attempt, tagged with the attempt index. -/
def alwaysTransientFail : Nat → Except StorErr Unit :=
  fun i => .error ⟨true, i⟩

end SlamCore

namespace SlamCore

/-! ## Theorems -/

lemma pymin_eq_min (a b : ℚ) : pymin a b = min a b := by
  simp only [pymin, min_def]
  split_ifs <;> linarith

lemma pymax_eq_max (a b : ℚ) : pymax a b = max a b := by
  simp only [pymax, max_def]
  split_ifs <;> linarith

/-- Claim C6. `parse_database` never raises: a missing database file returns
the all-zero/empty result, and any database-level failure during the read
returns the all-zero/empty result (with the diagnostic `error` key) instead
of propagating the exception — for every `keyframe_limit`. -/
theorem parse_database_degrades_on_failure :
    (∀ limit : Nat, parse_database .missing limit = ⟨0, 0, [], 0, none⟩) ∧
    (∀ (msg : String) (limit : Nat),
      parse_database (.failure msg) limit = ⟨0, 0, [], 0, some msg⟩) := by
  exact ⟨fun _ => rfl, fun _ _ => rfl⟩

/-- Claim C9. `scale_intrinsics` returns its input unchanged when the target
dimensions equal the original dimensions; otherwise it fails with
`ExtremeScaling` exactly when either scale factor `newW/oldW` or `newH/oldH`
exceeds 5.0 or is below 0.2, and in all remaining cases returns fx,cx scaled
by `newW/oldW` and fy,cy scaled by `newH/oldH`.  (Stated on the documented
domain of strictly positive original dimensions, where the embedding agrees
with the Python function exactly.) -/
theorem scale_intrinsics_spec :
    ∀ (orig : Intrinsics) (newW newH : Int), 0 < orig.width → 0 < orig.height →
      (orig.width = newW ∧ orig.height = newH →
        scale_intrinsics orig newW newH = .ok orig) ∧
      (¬(orig.width = newW ∧ orig.height = newH) →
        ((5 < (newW : ℚ) / (orig.width : ℚ) ∨ 5 < (newH : ℚ) / (orig.height : ℚ) ∨
            (newW : ℚ) / (orig.width : ℚ) < 1/5 ∨ (newH : ℚ) / (orig.height : ℚ) < 1/5) →
          scale_intrinsics orig newW newH = .error .extremeScaling) ∧
        (¬(5 < (newW : ℚ) / (orig.width : ℚ) ∨ 5 < (newH : ℚ) / (orig.height : ℚ) ∨
            (newW : ℚ) / (orig.width : ℚ) < 1/5 ∨ (newH : ℚ) / (orig.height : ℚ) < 1/5) →
          scale_intrinsics orig newW newH =
            .ok { fx := orig.fx * ((newW : ℚ) / (orig.width : ℚ))
                  fy := orig.fy * ((newH : ℚ) / (orig.height : ℚ))
                  cx := orig.cx * ((newW : ℚ) / (orig.width : ℚ))
                  cy := orig.cy * ((newH : ℚ) / (orig.height : ℚ))
                  width := newW
                  height := newH })) := by
  intro orig newW newH _hw _hh
  refine ⟨fun hmatch => ?_, fun hne => ⟨fun hext => ?_, fun hnot => ?_⟩⟩
  · simp only [scale_intrinsics]
    rw [if_pos hmatch]
  · simp only [scale_intrinsics]
    rw [if_neg hne, if_pos hext]
  · simp only [scale_intrinsics]
    rw [if_neg hne, if_neg hnot]

/-- Witness for `scale_intrinsics_spec`: a 640x480 calibration scaled to
1280x960 (both factors 2.0) is accepted and scaled linearly. -/
theorem scale_intrinsics_spec_witness :
    scale_intrinsics ⟨100, 100, 50, 50, 640, 480⟩ 1280 960 =
      .ok ⟨200, 200, 100, 100, 1280, 960⟩ := by
  have h := (scale_intrinsics_spec ⟨100, 100, 50, 50, 640, 480⟩ 1280 960
      (by norm_num) (by norm_num)).2 (by norm_num) |>.2 (by norm_num)
  rw [h]
  norm_num

/-- Claim C10. For every completed localization with a usable hypothesis, the
returned confidence equals `clamp((bestHypothesis + 1) / 2, 0.1, 0.9)`, lies
in `[0.1, 0.9]`, and never equals exactly 0 or 1 — for every rational
hypothesis value the interpreter can produce. -/
theorem localize_confidence_spec :
    ∀ (lines : List OutLine) (id : Nat) (best : ℚ),
      interpretOutput lines = .ok (id, best) →
      localizeConfidence best = min (9/10) (max (1/10) ((best + 1) / 2)) ∧
      1/10 ≤ localizeConfidence best ∧ localizeConfidence best ≤ 9/10 ∧
      localizeConfidence best ≠ 0 ∧ localizeConfidence best ≠ 1 := by
  intro lines id best _h
  have heq : localizeConfidence best = min (9/10) (max (1/10) ((best + 1) / 2)) := by
    rw [localizeConfidence, pymin_eq_min, pymax_eq_max]
  have hlo : (1/10 : ℚ) ≤ localizeConfidence best := by
    rw [heq]
    exact le_min (by norm_num) (le_max_left _ _)
  have hhi : localizeConfidence best ≤ 9/10 := by
    rw [heq]
    exact min_le_left _ _
  exact ⟨heq, hlo, hhi, fun h0 => by rw [h0] at hlo; linarith,
    fun h1 => by rw [h1] at hhi; linarith⟩

/-- Witness for `localize_confidence_spec`, at the localization whose stdout
holds the single accepted loop `loop(12) hyp(2)`. -/
theorem localize_confidence_spec_witness :
    1/10 ≤ localizeConfidence 2 ∧ localizeConfidence 2 ≤ 9/10 ∧
    localizeConfidence 2 ≠ 0 ∧ localizeConfidence 2 ≠ 1 := by
  have h := localize_confidence_spec [.loopLine 12 2] 12 2
    (by norm_num [interpretOutput, scanOutput, scanLine])
  exact ⟨h.2.1, h.2.2.1, h.2.2.2.1, h.2.2.2.2⟩

/-! ### C1: the tie-break scan -/

lemma scan_fixed_of_matched (lines : List OutLine) :
    ∀ st : ScanState, st.matched ≠ none → (∀ l ∈ lines, isLoopLine l = false) →
      List.foldl scanLine st lines = st := by
  induction lines with
  | nil => intro st _ _; rfl
  | cons l rest ih =>
      intro st hm hnl
      have hstep : scanLine st l = st := by
        cases l with
        | loopLine id hyp =>
            exact absurd (hnl (OutLine.loopLine id hyp) (List.mem_cons_self _ _))
              (by simp [isLoopLine])
        | highLine id hyp => simp [scanLine, hm]
        | other => rfl
      rw [List.foldl_cons, hstep]
      exact ih st hm (fun x hx => hnl x (by simp [hx]))

lemma scanLine_best_mono (st : ScanState) (l : OutLine) :
    st.best ≤ (scanLine st l).best := by
  cases l with
  | loopLine id hyp =>
      by_cases h : st.best < hyp
      · simp [scanLine, h]; linarith
      · simp [scanLine, h]
  | highLine id hyp =>
      by_cases hm : st.matched = none
      · by_cases h : st.best < hyp
        · simp [scanLine, hm, h]; linarith
        · simp [scanLine, hm, h]
      · simp [scanLine, hm]
  | other => simp [scanLine]

lemma scan_best_mono (lines : List OutLine) :
    ∀ st : ScanState, st.best ≤ (List.foldl scanLine st lines).best := by
  induction lines with
  | nil => intro st; exact le_refl _
  | cons l rest ih =>
      intro st
      rw [List.foldl_cons]
      exact le_trans (scanLine_best_mono st l) (ih _)

lemma scan_loop_dominated (lines : List OutLine) :
    ∀ (st : ScanState) (i : Nat) (hyp : ℚ), OutLine.loopLine i hyp ∈ lines →
      hyp ≤ (List.foldl scanLine st lines).best := by
  induction lines with
  | nil => intro _ _ _ h; cases h
  | cons l rest ih =>
      intro st i hyp hmem
      rw [List.foldl_cons]
      rcases List.mem_cons.mp hmem with heq | hrest
      · subst heq
        by_cases h : st.best < hyp
        · have : (scanLine st (OutLine.loopLine i hyp)).best = hyp := by
            simp [scanLine, h]
          calc hyp = (scanLine st (OutLine.loopLine i hyp)).best := this.symm
            _ ≤ _ := scan_best_mono rest _
        · have : scanLine st (OutLine.loopLine i hyp) = st := by simp [scanLine, h]
          rw [this]
          exact le_trans (not_lt.mp h) (scan_best_mono rest st)
      · exact ih _ i hyp hrest

lemma scan_no_loop_eq_firstHigh (lines : List OutLine) :
    (∀ l ∈ lines, isLoopLine l = false) →
      scanOutput lines =
        (match firstHighAbove lines with
         | none => ⟨none, -999⟩
         | some (id, h) => ⟨some id, h⟩) := by
  induction lines with
  | nil => intro _; rfl
  | cons l rest ih =>
      intro hnl
      have hrest : ∀ x ∈ rest, isLoopLine x = false := fun x hx => hnl x (by simp [hx])
      cases l with
      | loopLine id hyp =>
          exact absurd (hnl (OutLine.loopLine id hyp) (List.mem_cons_self _ _))
            (by simp [isLoopLine])
      | other =>
          rw [show scanOutput (OutLine.other :: rest) = scanOutput rest from rfl]
          rw [ih hrest]
          rfl
      | highLine id hyp =>
          by_cases h : (-999 : ℚ) < hyp
          · have hstep : scanLine ⟨none, -999⟩ (OutLine.highLine id hyp) =
                ⟨some id, hyp⟩ := by simp [scanLine, h]
            have : scanOutput (OutLine.highLine id hyp :: rest) =
                List.foldl scanLine ⟨some id, hyp⟩ rest := by
              simp only [scanOutput, List.foldl_cons, hstep]
            rw [this, scan_fixed_of_matched rest _ (by simp) hrest]
            simp [firstHighAbove, h]
          · have hstep : scanLine ⟨none, -999⟩ (OutLine.highLine id hyp) =
                ⟨none, -999⟩ := by simp [scanLine, h]
            have : scanOutput (OutLine.highLine id hyp :: rest) = scanOutput rest := by
              simp only [scanOutput, List.foldl_cons, hstep]
            rw [this, ih hrest]
            simp [firstHighAbove, h]

/-- Claim C1, counterexample. The claimed tie-break rule fails on the code:
with stdout `iteration(1) high(7) hyp(0.92)` then `iteration(2) loop(12)
hyp(0.85)` the scan selects node 7 — a `high` match — even though an
accepted-loop match (node 12) appears in the output, because a `high` line
seen while nothing is matched yet sets `matched_node_id`/`best_hypothesis`
and a later accepted loop must then beat it strictly.  Moreover with stdout
`high(3) hyp(0.40)` then `high(9) hyp(0.80)` the fallback selects node 3,
the first `high` match, not the maximum-hypothesis one. -/
theorem interpret_output_counterexample :
    interpretOutput [.highLine 7 (92/100), .loopLine 12 (85/100)] = .ok (7, 92/100) ∧
    (7 : Nat) ≠ 12 ∧
    interpretOutput [.highLine 3 (40/100), .highLine 9 (80/100)] = .ok (3, 40/100) ∧
    (3 : Nat) ≠ 9 := by
  refine ⟨?_, by norm_num, ?_, by norm_num⟩ <;>
    norm_num [interpretOutput, scanOutput, scanLine, Option.some_ne_none]

/-- Claim C1, amended. The scan keeps a running `best_hypothesis`
(initially -999) and selection: an accepted-loop line replaces the selection
whenever its hypothesis strictly exceeds the running best, while a `high`
line is considered only while nothing is selected yet.  Hence: (no-marker
outputs) it fails with `NoMatch`; (no accepted loop) the selection is the
*first* `high` match with hypothesis above -999, or `NoMatch` when there is
none; (always) the selected hypothesis dominates every accepted-loop
hypothesis in the output; and an accepted loop following a `high` selection
wins only when its hypothesis is strictly greater. -/
theorem interpret_output_amended :
    (∀ lines : List OutLine, (∀ l ∈ lines, l = OutLine.other) →
      interpretOutput lines = .error .noMatch) ∧
    (∀ lines : List OutLine, (∀ l ∈ lines, isLoopLine l = false) →
      interpretOutput lines =
        (match firstHighAbove lines with
         | none => .error .noMatch
         | some (id, h) => .ok (id, h))) ∧
    (∀ (lines : List OutLine) (id : Nat) (best : ℚ),
      interpretOutput lines = .ok (id, best) →
      ∀ (i : Nat) (hyp : ℚ), OutLine.loopLine i hyp ∈ lines → hyp ≤ best) ∧
    (∀ (hid lid : Nat) (hh lh : ℚ), -999 < hh →
      interpretOutput [.highLine hid hh, .loopLine lid lh] =
        if hh < lh then .ok (lid, lh) else .ok (hid, hh)) := by
  have hfallback : ∀ lines : List OutLine, (∀ l ∈ lines, isLoopLine l = false) →
      interpretOutput lines =
        (match firstHighAbove lines with
         | none => .error .noMatch
         | some (id, h) => .ok (id, h)) := by
    intro lines hnl
    rw [interpretOutput, scan_no_loop_eq_firstHigh lines hnl]
    cases hfh : firstHighAbove lines with
    | none => rfl
    | some p => cases p; rfl
  refine ⟨?_, hfallback, ?_, ?_⟩
  · intro lines hall
    have hnl : ∀ l ∈ lines, isLoopLine l = false := by
      intro l hl; rw [hall l hl]; rfl
    have hfh : firstHighAbove lines = none := by
      induction lines with
      | nil => rfl
      | cons l rest ih =>
          have hl : l = OutLine.other := hall l (by simp)
          subst hl
          exact ih (fun x hx => hall x (by simp [hx]))
            (fun x hx => hnl x (by simp [hx]))

    rw [hfallback lines hnl, hfh]
  · intro lines id best hok i hyp hmem
    have hdom := scan_loop_dominated lines ⟨none, -999⟩ i hyp hmem
    rw [interpretOutput] at hok
    rcases hscan : scanOutput lines with ⟨m, b⟩
    rw [hscan] at hok
    cases m with
    | none => simp at hok
    | some mid =>
        simp only [Except.ok.injEq, Prod.mk.injEq] at hok
        rw [show scanOutput lines = List.foldl scanLine ⟨none, -999⟩ lines from rfl]
          at hscan
        rw [hscan] at hdom
        exact hok.2 ▸ hdom
  · intro hid lid hh lh hgt
    have h1 : scanLine ⟨none, -999⟩ (OutLine.highLine hid hh) = ⟨some hid, hh⟩ := by
      simp [scanLine, hgt]
    by_cases h2 : hh < lh
    · have : scanLine ⟨some hid, hh⟩ (OutLine.loopLine lid lh) = ⟨some lid, lh⟩ := by
        simp [scanLine, h2]
      simp only [interpretOutput, scanOutput, List.foldl_cons, List.foldl_nil, h1, this,
        if_pos h2]
    · have : scanLine ⟨some hid, hh⟩ (OutLine.loopLine lid lh) = ⟨some hid, hh⟩ := by
        simp [scanLine, h2]
      simp only [interpretOutput, scanOutput, List.foldl_cons, List.foldl_nil, h1, this,
        if_neg h2]

/-- Witness for `interpret_output_amended`: with stdout `high(1) hyp(0)` then
`loop(2) hyp(0.5)` the accepted loop strictly beats the earlier `high`
selection and node 2 is selected. -/
theorem interpret_output_amended_witness :
    interpretOutput [.highLine 1 0, .loopLine 2 (1/2)] = .ok (2, 1/2) := by
  have h := interpret_output_amended.2.2.2 1 2 0 (1/2) (by norm_num)
  rw [h, if_pos (by norm_num)]

/-! ### C2: the pose-blob decoder

The lemmas `quat_branch*_radicand_pos` justify the totality of the
rotation-to-quaternion conversion inside `_parse_pose_blob` (and
`_extract_node_pose`) under exact arithmetic: in each of the four branches
selected by the trace/diagonal comparisons the square-root argument is
strictly positive (branch 1 computes `sqrt(trace + 1)` with `trace > 0`), so
`math.sqrt` gets a positive argument and every divisor is nonzero — the
`except` arms are unreachable for finite float inputs. -/

lemma quat_branch1_radicand_pos (r11 r22 r33 : ℚ) (h : 0 < r11 + r22 + r33) :
    0 < r11 + r22 + r33 + 1 := by linarith

lemma quat_branch2_radicand_pos (r11 r22 r33 : ℚ)
    (htr : ¬0 < r11 + r22 + r33) (h1 : r22 < r11) (h2 : r33 < r11) :
    0 < 1 + r11 - r22 - r33 := by
  rcases lt_or_le r11 1 with h | h
  · linarith
  · linarith

lemma quat_branch3_radicand_pos (r11 r22 r33 : ℚ)
    (htr : ¬0 < r11 + r22 + r33) (hnd : ¬(r22 < r11 ∧ r33 < r11))
    (h2 : r33 < r22) : 0 < 1 + r22 - r11 - r33 := by
  rcases not_and_or.mp hnd with h | h
  · push_neg at h
    rcases lt_or_le r33 1 with h3 | h3
    · linarith
    · linarith
  · push_neg at h
    rcases lt_or_le r33 1 with h3 | h3
    · linarith
    · linarith

lemma quat_branch4_radicand_pos (r11 r22 r33 : ℚ)
    (htr : ¬0 < r11 + r22 + r33) (hnd : ¬(r22 < r11 ∧ r33 < r11))
    (h2 : ¬r33 < r22) : 0 < 1 + r33 - r11 - r22 := by
  push_neg at h2
  rcases not_and_or.mp hnd with h | h
  · push_neg at h
    rcases lt_or_le r11 1 with h3 | h3
    · linarith
    · linarith
  · push_neg at h
    rcases lt_or_le r22 1 with h3 | h3
    · linarith
    · linarith

lemma parse_pose_blob_none_iff (blob : List Nat) :
    parse_pose_blob blob = none ↔ blob.length < 48 := by
  constructor
  · intro hnone
    by_contra hlen
    rw [parse_pose_blob, if_neg hlen] at hnone
    cases hnone
  · intro hlen
    rw [parse_pose_blob, if_pos hlen]

/-- Claim C2, counterexample. The decoder used by `parse_database` does not
reject every blob whose length differs from 48: a 49-byte blob (all zero
bytes) is longer than 48 bytes yet decodes successfully — the guard is
`len(blob) < 48` and `struct.unpack` is fed `blob[:48]`. -/
theorem parse_pose_blob_counterexample :
    (List.replicate 49 0).length ≠ 48 ∧
    (parse_pose_blob (List.replicate 49 0)).isSome = true := by
  constructor
  · simp
  · simp [parse_pose_blob]

/-- Claim C2, amended. `_parse_pose_blob` fails exactly when the input is
*shorter* than 48 bytes; every input of at least 48 bytes succeeds, decoding
only its first 48 bytes (`blob[:48]`), and an exactly-48-byte input decodes
to the position `(values[3], values[7], values[11])` and the rotation block
the orientation quaternion is computed from. -/
theorem parse_pose_blob_amended :
    ∀ blob : List Nat,
      (parse_pose_blob blob = none ↔ blob.length < 48) ∧
      (48 ≤ blob.length → parse_pose_blob blob = parse_pose_blob (blob.take 48)) ∧
      (blob.length = 48 →
        parse_pose_blob blob =
          some { position := (f32At blob 3, f32At blob 7, f32At blob 11),
                 rot := [f32At blob 0, f32At blob 1, f32At blob 2,
                         f32At blob 4, f32At blob 5, f32At blob 6,
                         f32At blob 8, f32At blob 9, f32At blob 10] }) := by
  intro blob
  refine ⟨parse_pose_blob_none_iff blob, ?_, ?_⟩
  · intro hlen
    have htake : (blob.take 48).take 48 = blob.take 48 := by
      simp [List.take_take]
    have hlen48 : (blob.take 48).length = 48 := by
      simp [List.length_take]
      omega
    rw [parse_pose_blob, parse_pose_blob, if_neg (by omega), if_neg (by omega), htake]
  · intro hlen
    have htake : blob.take 48 = blob := List.take_of_length_le (by omega)
    rw [parse_pose_blob, if_neg (by omega), htake]

lemma getD_zero_of_all_zero :
    ∀ (l : List Nat) (j : Nat), (∀ x ∈ l, x = 0) → l.getD j 0 = 0
  | [], j, _ => by simp
  | a :: l, 0, h => by
      simpa using h a (by simp)
  | a :: l, j + 1, h => by
      simpa using getD_zero_of_all_zero l j (fun x hx => h x (by simp [hx]))

/-- Witness for `parse_pose_blob_amended`: the empty blob is rejected
(`MalformedRecord`), and the all-zero 48-byte blob decodes (to the zero
position and zero rotation block, since the zero bit pattern decodes to 0). -/
theorem parse_pose_blob_amended_witness :
    parse_pose_blob [] = none ∧
    parse_pose_blob (List.replicate 48 0) =
      some { position := (0, 0, 0), rot := [0, 0, 0, 0, 0, 0, 0, 0, 0] } := by
  constructor
  · exact (parse_pose_blob_amended []).1.mpr (by simp)
  · have h := (parse_pose_blob_amended (List.replicate 48 0)).2.2 (by simp)
    rw [h]
    have hz : ∀ i : Nat, f32At (List.replicate 48 0) i = 0 := by
      intro i
      have hb : ∀ j : Nat, (List.replicate 48 (0 : Nat)).getD j 0 = 0 := fun j =>
        getD_zero_of_all_zero _ j (fun x hx => List.eq_of_mem_replicate hx)
      norm_num [f32At, hb, wordOfBytesLE, decodeF32]
    norm_num [hz]

/-! ### C5: parse_database keyframe accounting -/

lemma collectKeyframes_eq_filterMap :
    ∀ rows : List NodeRow, collectKeyframes rows = rows.filterMap keyframeOf := by
  intro rows
  induction rows with
  | nil => rfl
  | cons n rest ih =>
      rw [List.filterMap_cons]
      cases hp : n.pose with
      | none => simp [collectKeyframes, keyframeOf, hp, ih]
      | some blob =>
          by_cases hb : blob = []
          · simp [collectKeyframes, keyframeOf, hp, hb, ih]
          · cases hparse : parse_pose_blob blob with
            | none => simp [collectKeyframes, keyframeOf, hp, hb, hparse, ih]
            | some p => simp [collectKeyframes, keyframeOf, hp, hb, hparse, ih]

/-- Claim C5. For every readable map database, `parse_database` (at the default
`keyframe_limit = 0`) reports `num_keyframes` equal to the total number of
Node rows, while `keyframes` holds exactly the contributions of the Node rows
in id order, each row contributing precisely when its pose blob is present
(non-NULL and non-empty) and well-formed (accepted by the decoder, i.e. at
least 48 bytes); excluded rows are still counted in `num_keyframes`.
`num_map_points` and `loop_closures` count the Feature rows and the type-2
Link rows. -/
theorem parse_database_keyframes_spec :
    ∀ db : MapDB,
      (parse_database (.good db) 0).num_keyframes = db.nodes.length ∧
      (parse_database (.good db) 0).num_map_points = db.featureCount ∧
      (parse_database (.good db) 0).loop_closures =
        (db.linkTypes.filter fun t => decide (t = 2)).length ∧
      (parse_database (.good db) 0).keyframes =
        (sortLe (fun a b => decide (a.id ≤ b.id)) db.nodes).filterMap keyframeOf ∧
      (∀ n : NodeRow, (keyframeOf n).isSome ↔
        ∃ b, n.pose = some b ∧ b ≠ [] ∧ 48 ≤ b.length) := by
  intro db
  refine ⟨rfl, rfl, rfl, ?_, ?_⟩
  · have hkf : (parse_database (.good db) 0).keyframes =
        collectKeyframes (sortLe (fun a b => decide (a.id ≤ b.id)) db.nodes) := by
      simp [parse_database]
    rw [hkf, collectKeyframes_eq_filterMap]
  · intro n
    cases hp : n.pose with
    | none => simp [keyframeOf, hp]
    | some blob =>
        by_cases hb : blob = []
        · simp [keyframeOf, hp, hb]
        · have hkn : keyframeOf n =
              (parse_pose_blob blob).map fun p => ⟨n.id, n.stamp, p⟩ := by
            simp [keyframeOf, hp, hb]
          rw [hkn]
          constructor
          · intro hs
            refine ⟨blob, rfl, hb, ?_⟩
            by_contra hlen
            rw [(parse_pose_blob_none_iff blob).mpr (by omega)] at hs
            simp at hs
          · rintro ⟨b, hbeq, -, hlen⟩
            have hbb : b = blob := (Option.some.inj hbeq).symm
            subst hbb
            rcases hparse : parse_pose_blob b with _ | p
            · exact absurd ((parse_pose_blob_none_iff b).mp hparse) (by omega)
            · simp

/-! ### C8: the calibration codec -/

/-- Claim C8, counterexample. `encodeCalibration` does not produce a 164-byte
buffer for *every* strictly positive input: `width = 2^31` is strictly
positive but outside the int32 range of the `'<i'` pack format, so
`struct.pack` raises `struct.error` instead of returning a buffer. -/
theorem build_calibration_blob_counterexample :
    (0 : ℚ) < 1 ∧ (0 : Int) < 2 ^ 31 ∧
    build_calibration_blob 1 1 1 1 (2 ^ 31) 1 = .error .packOverflow := by
  refine ⟨by norm_num, by positivity, ?_⟩
  rw [build_calibration_blob, if_pos]
  right; left
  exact le_refl _

/-- Claim C8, amended. For all strictly positive `fx, fy, cx, cy` and strictly
positive int32-representable `width, height`, `encodeCalibration` produces a
buffer of exactly 164 bytes and `decodeCalibration` recovers exactly the same
`fx, fy, cx, cy, width, height`; decoding a buffer of any byte length other
than 164 fails with `MalformedRecord`. -/
theorem calibration_codec_amended :
    (∀ (fx fy cx cy : ℚ) (width height : Int),
      0 < fx → 0 < fy → 0 < cx → 0 < cy →
      0 < width → 0 < height → width < 2 ^ 31 → height < 2 ^ 31 →
      ∃ blob, build_calibration_blob fx fy cx cy width height = .ok blob ∧
        blobBytes blob = 164 ∧
        extract_intrinsics_from_blob blob = .ok ⟨fx, fy, cx, cy, width, height⟩) ∧
    (∀ blob : List PackField, blobBytes blob ≠ 164 →
      extract_intrinsics_from_blob blob = .error .malformedRecord) := by
  constructor
  · intro fx fy cx cy width height hfx hfy hcx hcy hw hh hw32 hh32
    have hpow : (0 : Int) < 2 ^ 31 := by positivity
    have hnot : ¬(width < -(2 ^ 31) ∨ 2 ^ 31 ≤ width ∨
        height < -(2 ^ 31) ∨ 2 ^ 31 ≤ height) := by
      push_neg
      exact ⟨by linarith, by linarith, by linarith, by linarith⟩
    have hbytes : blobBytes (calibFields fx fy cx cy width height) = 164 := by
      simp [calibFields, blobBytes, PackField.size]
    refine ⟨calibFields fx fy cx cy width height,
      by rw [build_calibration_blob, if_neg hnot], hbytes, ?_⟩
    have hnotpos : ¬(fx ≤ 0 ∨ fy ≤ 0 ∨ cx ≤ 0 ∨ cy ≤ 0 ∨ width ≤ 0 ∨ height ≤ 0) := by
      push_neg
      exact ⟨hfx, hfy, hcx, hcy, hw, hh⟩
    rw [extract_intrinsics_from_blob, if_neg (fun hne => hne hbytes)]
    rw [show getI32 (calibFields fx fy cx cy width height) 4 = some width from rfl]
    rw [show getI32 (calibFields fx fy cx cy width height) 5 = some height from rfl]
    rw [show getF64 (calibFields fx fy cx cy width height) 11 = some fx from rfl]
    rw [show getF64 (calibFields fx fy cx cy width height) 13 = some cx from rfl]
    rw [show getF64 (calibFields fx fy cx cy width height) 15 = some fy from rfl]
    rw [show getF64 (calibFields fx fy cx cy width height) 16 = some cy from rfl]
    show (if fx ≤ 0 ∨ fy ≤ 0 ∨ cx ≤ 0 ∨ cy ≤ 0 ∨ width ≤ 0 ∨ height ≤ 0 then
        (Except.error CoreErr.invalidIntrinsics : Except CoreErr Intrinsics)
      else Except.ok ⟨fx, fy, cx, cy, width, height⟩) =
        Except.ok ⟨fx, fy, cx, cy, width, height⟩
    exact if_neg hnotpos
  · intro blob hb
    rw [extract_intrinsics_from_blob, if_pos hb]

/-- Witness for `calibration_codec_amended`: a 1920x1080 calibration with
unit intrinsics round-trips, and the empty buffer (0 bytes) is rejected. -/
theorem calibration_codec_amended_witness :
    (∃ blob, build_calibration_blob 1 1 1 1 1920 1080 = .ok blob ∧
      blobBytes blob = 164 ∧
      extract_intrinsics_from_blob blob = .ok ⟨1, 1, 1, 1, 1920, 1080⟩) ∧
    extract_intrinsics_from_blob [] = .error .malformedRecord := by
  constructor
  · exact calibration_codec_amended.1 1 1 1 1 1920 1080 (by norm_num) (by norm_num)
      (by norm_num) (by norm_num) (by norm_num) (by norm_num) (by norm_num) (by norm_num)
  · exact calibration_codec_amended.2 [] (by simp [blobBytes])

/-! ### C3: the durable status-write retry wrapper -/

/-- Claim C3, counterexample. The retry wrapper does not retry up to 3 times
with backoff delays 100ms, 200ms and 400ms: on an operation that fails with
a transient connection error on every attempt (with `max_retries = 3`, the
value used by every adapter call) it invokes the operation 3 times in total
— the first call plus only *2* retries — sleeping 100ms and 200ms; the 400ms
delay of the claimed schedule never occurs, because the last loop iteration
(`attempt == max_retries - 1`) re-raises instead of sleeping. -/
theorem retry_on_connection_error_counterexample :
    (retry_on_connection_error alwaysTransientFail 3).attempts = 3 ∧
    (retry_on_connection_error alwaysTransientFail 3).sleeps = [1/10, 2/10] ∧
    (retry_on_connection_error alwaysTransientFail 3).sleeps ≠ [1/10, 2/10, 4/10] ∧
    (retry_on_connection_error alwaysTransientFail 3).result = .error ⟨true, 2⟩ := by
  have h : retry_on_connection_error alwaysTransientFail 3 =
      ⟨.error ⟨true, 2⟩, [1/10, 2/10], 3⟩ := by
    rw [retry_on_connection_error]
    rw [retryGo, dif_pos (by norm_num)]
    rw [show alwaysTransientFail 0 = .error ⟨true, 0⟩ from rfl]
    rw [retryGo, dif_pos (by norm_num)]
    rw [show alwaysTransientFail 1 = .error ⟨true, 1⟩ from rfl]
    rw [retryGo, dif_pos (by norm_num)]
    rw [show alwaysTransientFail 2 = .error ⟨true, 2⟩ from rfl]
    norm_num
  rw [h]
  refine ⟨rfl, rfl, by simp, rfl⟩

/-- Claim C3, amended. With `max_retries = 3` (the wrapper's default, used by
every status write), the wrapped operation is attempted up to 3 times in
total, i.e. retried up to 2 times after the first failure, with exponential
backoff delays of 100ms then 200ms; after the final attempt fails the error
raised by that last attempt propagates to the caller.  Errors not in the
caught transient classes propagate immediately without a retry, and the
sleep schedule is always a prefix of `[100ms, 200ms]`. -/
theorem retry_on_connection_error_amended :
    (∀ (op : Nat → Except StorErr Unit) (e0 e1 e2 : StorErr),
      op 0 = .error e0 → e0.caught = true →
      op 1 = .error e1 → e1.caught = true →
      op 2 = .error e2 → e2.caught = true →
      retry_on_connection_error op 3 = ⟨.error e2, [1/10, 2/10], 3⟩) ∧
    (∀ (op : Nat → Except StorErr Unit) (e0 : StorErr),
      op 0 = .error e0 → e0.caught = true → op 1 = .ok () →
      retry_on_connection_error op 3 = ⟨.ok (some ()), [1/10], 2⟩) ∧
    (∀ (op : Nat → Except StorErr Unit) (e0 : StorErr),
      op 0 = .error e0 → e0.caught = false →
      retry_on_connection_error op 3 = ⟨.error e0, [], 1⟩) ∧
    (∀ op : Nat → Except StorErr Unit,
      (retry_on_connection_error op 3).attempts ≤ 3 ∧
      ((retry_on_connection_error op 3).sleeps = [] ∨
       (retry_on_connection_error op 3).sleeps = [1/10] ∨
       (retry_on_connection_error op 3).sleeps = [1/10, 2/10])) := by
  have hstep0 : ∀ (op : Nat → Except StorErr Unit) (e0 : StorErr),
      op 0 = .error e0 → e0.caught = true →
      retry_on_connection_error op 3 =
        ⟨(retryGo op 3 1).result, 1/10 :: (retryGo op 3 1).sleeps,
          (retryGo op 3 1).attempts + 1⟩ := by
    intro op e0 h0 hc
    rw [retry_on_connection_error, retryGo, dif_pos (by norm_num), h0]
    simp only [hc, if_true]
    rw [if_neg (by norm_num)]
    norm_num
  have hstep1 : ∀ (op : Nat → Except StorErr Unit) (e1 : StorErr),
      op 1 = .error e1 → e1.caught = true →
      retryGo op 3 1 =
        ⟨(retryGo op 3 2).result, 1/5 :: (retryGo op 3 2).sleeps,
          (retryGo op 3 2).attempts + 1⟩ := by
    intro op e1 h1 hc
    rw [retryGo, dif_pos (by norm_num), h1]
    simp only [hc, if_true]
    rw [if_neg (by norm_num)]
    norm_num
  have hlast : ∀ (op : Nat → Except StorErr Unit) (e2 : StorErr),
      op 2 = .error e2 → e2.caught = true →
      retryGo op 3 2 = ⟨.error e2, [], 1⟩ := by
    intro op e2 h2 hc
    rw [retryGo, dif_pos (by norm_num), h2]
    simp [hc]
  have hok : ∀ (op : Nat → Except StorErr Unit) (v : Unit) (k : Nat), k < 3 →
      op k = .ok v → retryGo op 3 k = ⟨.ok (some v), [], 1⟩ := by
    intro op v k hk hke
    rw [retryGo, dif_pos hk, hke]
  have hfatal : ∀ (op : Nat → Except StorErr Unit) (e : StorErr) (k : Nat), k < 3 →
      op k = .error e → e.caught = false → retryGo op 3 k = ⟨.error e, [], 1⟩ := by
    intro op e k hk hke hc
    rw [retryGo, dif_pos hk, hke]
    simp [hc]
  refine ⟨?_, ?_, ?_, ?_⟩
  · intro op e0 e1 e2 h0 hc0 h1 hc1 h2 hc2
    rw [hstep0 op e0 h0 hc0, hstep1 op e1 h1 hc1, hlast op e2 h2 hc2]
    norm_num
  · intro op e0 h0 hc0 h1
    rw [hstep0 op e0 h0 hc0, hok op () 1 (by norm_num) h1]
  · intro op e0 h0 hc0
    have := hfatal op e0 0 (by norm_num) h0 hc0
    rw [retry_on_connection_error, this]
  · intro op
    rcases h0 : op 0 with e0 | v0
    case ok =>
      have hgo : retry_on_connection_error op 3 = ⟨.ok (some v0), [], 1⟩ := by
        rw [retry_on_connection_error]
        exact hok op v0 0 (by norm_num) h0
      rw [hgo]
      exact ⟨by norm_num, Or.inl rfl⟩
    case error =>
      rcases hc0 : e0.caught with _ | _
      case false =>
        have hgo : retry_on_connection_error op 3 = ⟨.error e0, [], 1⟩ := by
          rw [retry_on_connection_error]
          exact hfatal op e0 0 (by norm_num) h0 hc0
        rw [hgo]
        exact ⟨by norm_num, Or.inl rfl⟩
      case true =>
        rw [hstep0 op e0 h0 hc0]
        rcases h1 : op 1 with e1 | v1
        case ok =>
          rw [hok op v1 1 (by norm_num) h1]
          exact ⟨by norm_num, Or.inr (Or.inl rfl)⟩
        case error =>
          rcases hc1 : e1.caught with _ | _
          case false =>
            rw [hfatal op e1 1 (by norm_num) h1 hc1]
            exact ⟨by norm_num, Or.inr (Or.inl rfl)⟩
          case true =>
            rw [hstep1 op e1 h1 hc1]
            rcases h2 : op 2 with e2 | v2
            case ok =>
              rw [hok op v2 2 (by norm_num) h2]
              exact ⟨by norm_num, Or.inr (Or.inr (by norm_num))⟩
            case error =>
              rcases hc2 : e2.caught with _ | _
              case false =>
                rw [hfatal op e2 2 (by norm_num) h2 hc2]
                exact ⟨by norm_num, Or.inr (Or.inr (by norm_num))⟩
              case true =>
                rw [hlast op e2 h2 hc2]
                exact ⟨by norm_num, Or.inr (Or.inr (by norm_num))⟩

/-- Witness for `retry_on_connection_error_amended`: an operation that fails
transiently on its first two attempts and succeeds on the third-attempt
schedule's second retry... applied at a concrete operation failing at attempt
0 and succeeding at attempt 1: one 100ms sleep, two attempts. -/
theorem retry_on_connection_error_amended_witness :
    retry_on_connection_error
        (fun i => if i = 0 then .error ⟨true, 0⟩ else .ok ()) 3 =
      ⟨.ok (some ()), [1/10], 2⟩ := by
  exact retry_on_connection_error_amended.2.1
    (fun i => if i = 0 then .error ⟨true, 0⟩ else .ok ()) ⟨true, 0⟩
    (by norm_num) rfl (by norm_num)

/-! ### C4: the worker loop drains every job -/

lemma getLast?_of_all_eq :
    ∀ (L : List ScanStatus) (st : ScanStatus), L ≠ [] → (∀ x ∈ L, x = st) →
      L.getLast? = some st
  | [], _, hne, _ => absurd rfl hne
  | [a], st, _, h => by rw [h a (by simp)]; rfl
  | a :: b :: L, st, _, h => by
      rw [List.getLast?_cons_cons]
      exact getLast?_of_all_eq (b :: L) st (by simp)
        (fun x hx => h x (List.mem_cons_of_mem a hx))

lemma lastStatus_append_const (first : List (Nat × ScanStatus))
    (sess : List (Nat × Except PyExc Unit)) (st : ScanStatus) (sid : Nat)
    (h : ∃ s ∈ sess, s.1 = sid) :
    lastStatus (first ++ sess.map fun t => (t.1, st)) sid = some st := by
  obtain ⟨s, hs, hsid⟩ := h
  have hmem : (sid, st) ∈ (sess.map fun t => (t.1, st)).filter
      (fun w => decide (w.1 = sid)) := by
    refine List.mem_filter.mpr ⟨?_, by simp⟩
    exact hsid ▸ List.mem_map_of_mem (fun t => (t.1, st)) hs
  have hne : (((sess.map fun t => (t.1, st)).filter
      (fun w => decide (w.1 = sid))).map (fun w => w.2)) ≠ [] := by
    exact List.ne_nil_of_mem (List.mem_map_of_mem (fun w => w.2) hmem)
  rw [lastStatus, List.filter_append, List.map_append,
    List.getLast?_append_of_ne_nil _ hne]
  apply getLast?_of_all_eq _ st hne
  intro x hx
  obtain ⟨w, hw, hwx⟩ := List.mem_map.mp hx
  obtain ⟨t, _, hts⟩ := List.mem_map.mp (List.mem_filter.mp hw).1
  rw [← hwx, ← hts]

/-- Claim C4. The worker loop drains every enqueued job: the write log of a
queue decomposes job by job, so a job whose pipeline raises never prevents
the processing of the jobs after it; a job whose pipeline raises any error
(in any of its sessions, or in the artifact save) has every one of its
sessions durably marked `failed` with the captured error description
`"TypeName: message"`, and a job whose pipeline raises no error has every
session marked `completed`. -/
theorem worker_loop_spec :
    (∀ (pre post : List Job) (j : Job),
      worker_loop (pre ++ j :: post) =
        worker_loop pre ++ (processJob j ++ worker_loop post)) ∧
    (∀ (j : Job) (e : PyExc) (s : Nat × Except PyExc Unit),
      jobError j = some e → s ∈ j.sessions →
      lastStatus (processJob j) s.1 = some (.failed (describeExc e))) ∧
    (∀ (j : Job) (s : Nat × Except PyExc Unit),
      jobError j = none → s ∈ j.sessions →
      lastStatus (processJob j) s.1 = some .completed) := by
  refine ⟨?_, ?_, ?_⟩
  · intro pre post j
    induction pre with
    | nil => rfl
    | cons p rest ih =>
        show processJob p ++ worker_loop (rest ++ j :: post) = _
        rw [ih]
        simp [worker_loop, List.append_assoc]
  · intro j e s hje hs
    rw [processJob, hje]
    exact lastStatus_append_const _ _ _ _ ⟨s, hs, rfl⟩
  · intro j s hje hs
    rw [processJob, hje]
    exact lastStatus_append_const _ _ _ _ ⟨s, hs, rfl⟩

/-- Witness for `worker_loop_spec`, at the spec's three-job scenario: jobs 1
and 3 succeed, job 2's engine invocation raises `ValueError: boom`; the
worker processes all three, job 2's session ends `failed` with the captured
message and the others end `completed`. -/
theorem worker_loop_spec_witness :
    worker_loop [⟨1, [(11, .ok ())], .ok ()⟩,
        ⟨2, [(22, .error ⟨"ValueError", "boom"⟩)], .ok ()⟩,
        ⟨3, [(33, .ok ())], .ok ()⟩] =
      processJob ⟨1, [(11, .ok ())], .ok ()⟩ ++
        (processJob ⟨2, [(22, .error ⟨"ValueError", "boom"⟩)], .ok ()⟩ ++
          processJob ⟨3, [(33, .ok ())], .ok ()⟩) ∧
    lastStatus (processJob ⟨2, [(22, .error ⟨"ValueError", "boom"⟩)], .ok ()⟩) 22 =
      some (.failed ("ValueError: boom")) ∧
    lastStatus (processJob ⟨1, [(11, .ok ())], .ok ()⟩) 11 = some .completed := by
  refine ⟨?_, ?_, ?_⟩
  · have h := worker_loop_spec.1 [⟨1, [(11, .ok ())], .ok ()⟩]
      [⟨3, [(33, .ok ())], .ok ()⟩] ⟨2, [(22, .error ⟨"ValueError", "boom"⟩)], .ok ()⟩
    rw [show ([⟨1, [(11, .ok ())], .ok ()⟩] : List Job) ++
        ⟨2, [(22, .error ⟨"ValueError", "boom"⟩)], .ok ()⟩ ::
          [⟨3, [(33, .ok ())], .ok ()⟩] =
        [⟨1, [(11, .ok ())], .ok ()⟩, ⟨2, [(22, .error ⟨"ValueError", "boom"⟩)], .ok ()⟩,
          ⟨3, [(33, .ok ())], .ok ()⟩] from rfl] at h
    rw [h]
    rfl
  · have h := worker_loop_spec.2.1 ⟨2, [(22, .error ⟨"ValueError", "boom"⟩)], .ok ()⟩
      ⟨"ValueError", "boom"⟩ (22, .error ⟨"ValueError", "boom"⟩) rfl (by simp)
    simpa [describeExc] using h
  · exact worker_loop_spec.2.2 ⟨1, [(11, .ok ())], .ok ()⟩ (11, .ok ()) rfl (by simp)

/-! ### C7: frame retention and node numbering in the database builder -/

lemma buildLoop_eq (mono : Bool) (w h : Nat) :
    ∀ (files : List Frame) (n k : Nat),
      buildLoop mono w h files n k =
        (numberRows mono w h n (files.filter (keepFrame mono w h)),
         k + (files.filter fun f => !(keepFrame mono w h f)).length) := by
  intro files
  induction files with
  | nil => intro n k; simp [buildLoop, numberRows]
  | cons f fs ih =>
      intro n k
      cases mono with
      | true =>
          have hstep : buildLoop true w h (f :: fs) n k =
              (⟨n + 1, f.name, stampOf f, none⟩ :: (buildLoop true w h fs (n + 1) k).1,
               (buildLoop true w h fs (n + 1) k).2) := by
            simp [buildLoop]
          rw [hstep, ih (n + 1) k]
          simp [List.filter_cons, numberRows, keepFrame]
      | false =>
          by_cases hl : load_and_resize_depth f.depth w h = none
          · have hkeep : keepFrame false w h f = false := by
              simp [keepFrame, hl]
            simp only [buildLoop, List.filter_cons, hkeep]
            simp only [Bool.not_false, if_neg, if_pos, Bool.false_eq_true, ite_false,
              ite_true]
            rw [if_pos ⟨by simp, hl⟩, ih n (k + 1)]
            refine congrArg _ ?_
            simp
            omega
          · have hkeep : keepFrame false w h f = true := by
              simp [keepFrame, Option.isSome_iff_ne_none, hl]
            simp only [buildLoop, List.filter_cons, hkeep]
            rw [if_neg (by simp [hl]), ih (n + 1) k]
            simp [numberRows]

lemma numberRows_ids (mono : Bool) (w h : Nat) :
    ∀ (l : List Frame) (n : Nat),
      (numberRows mono w h n l).map (fun r => r.id) = List.range' (n + 1) l.length := by
  intro l
  induction l with
  | nil => intro n; simp [numberRows]
  | cons f fs ih =>
      intro n
      simp [numberRows, List.range'_succ, ih (n + 1)]

/-- Claim C7. In non-monocular mode `build_database` skips exactly those frames
(of the filename-sorted image files) whose depth image is missing/unreadable,
empty, or all-zero, assigning them no node; the retained frames get
sequential node ids `1, 2, ...` in filename-sorted order, and the skip count
is the number of skipped frames.  In monocular mode the depth check is
skipped entirely, so every image file is retained. -/
theorem build_database_frame_spec :
    (∀ (d : Option DepthImg) (w h : Nat),
      load_and_resize_depth d w h = none ↔
        d = none ∨ ∃ img, d = some img ∧ (depthSize img = 0 ∨ depthMax img = 0)) ∧
    (∀ (frames : List Frame) (w h : Nat) (mono : Bool),
      build_database frames mono w h =
        (numberRows mono w h 0 ((imageFiles frames).filter (keepFrame mono w h)),
         ((imageFiles frames).filter fun f => !(keepFrame mono w h f)).length)) ∧
    (∀ (frames : List Frame) (w h : Nat) (mono : Bool),
      (build_database frames mono w h).1.map (fun r => r.id) =
        List.range' 1 ((imageFiles frames).filter (keepFrame mono w h)).length) ∧
    (∀ (w h : Nat) (f : Frame), keepFrame true w h f = true) ∧
    (∀ (w h : Nat) (f : Frame), keepFrame false w h f = false ↔
      (f.depth = none ∨
        ∃ img, f.depth = some img ∧ (depthSize img = 0 ∨ depthMax img = 0))) := by
  have hnone : ∀ (d : Option DepthImg) (w h : Nat),
      load_and_resize_depth d w h = none ↔
        d = none ∨ ∃ img, d = some img ∧ (depthSize img = 0 ∨ depthMax img = 0) := by
    intro d w h
    cases d with
    | none => simp [load_and_resize_depth]
    | some img =>
        by_cases hz : depthSize img = 0 ∨ depthMax img = 0
        · simp only [load_and_resize_depth, if_pos hz]
          simp [hz]
        · simp only [load_and_resize_depth, if_neg hz]
          constructor
          · intro hcontr
            by_cases hd : (img.headD []).length ≠ w ∨ img.length ≠ h
            · rw [if_pos hd] at hcontr; cases hcontr
            · rw [if_neg hd] at hcontr; cases hcontr
          · rintro (hcontr | ⟨img2, himg2, hz2⟩)
            · cases hcontr
            · rw [Option.some.injEq] at himg2
              exact absurd (himg2 ▸ hz2) hz
  refine ⟨hnone, ?_, ?_, fun w h f => rfl, ?_⟩
  · intro frames w h mono
    rw [build_database, buildLoop_eq]
    simp
  · intro frames w h mono
    rw [build_database, buildLoop_eq]
    exact numberRows_ids mono w h _ 0
  · intro w h f
    have : keepFrame false w h f = (load_and_resize_depth f.depth w h).isSome := by
      simp [keepFrame]
    rw [this, ← hnone f.depth w h]
    cases hl : load_and_resize_depth f.depth w h <;> simp [hl]

end SlamCore
